import Mathlib

/-!
Verification of the data-to-tensor preprocessing and architecture-heuristic
pipeline of the neural-network-interpreter repository.

The definitions below are shallow embeddings of the TypeScript sources:
  src/utils/dataProcessing.ts   (processData, normalizeData, predictOptimalArchitecture)
  src/services/dataService.ts   (processData: label map, std replacement)
  src/services/modelService.ts  (createModel, trainModel pre-fit validation)
  src/services/modelController.ts (processFile)
Machine numbers are modelled exactly: rational arithmetic for the encoder /
reconciler / heuristic, real arithmetic (with exact square roots) for the
z-score normalizer.  JavaScript coercion of non-numeric strings via Number()
is not modelled; theorems that touch a numeric code path carry the explicit
hypothesis that the relevant cells are numeric.
-/

namespace NNI

/-- A raw CSV cell after PapaParse dynamic typing: either a number or a
string (dataProcessing.ts parseCSV with dynamicTyping: true). -/
inductive CellValue where
  | num (q : ℚ)
  | str (s : String)
deriving DecidableEq

/-- JavaScript test typeof v === "string" used at dataProcessing.ts line 71
and line 99. -/
def CellValue.isStr : CellValue → Bool
  | .str _ => true
  | .num _ => false

/-- JavaScript Number(v) coercion for cells that are already numbers.  The
coercion of strings (Number("x")) is not modelled; theorems using this
function restrict to numeric cells. -/
def CellValue.jsNumber : CellValue → ℚ
  | .num q => q
  | .str _ => 0

/-- One step of first-occurrence deduplication: append x unless seen. -/
def insertIfAbsent {α : Type} [DecidableEq α] (acc : List α) (x : α) : List α :=
  if x ∈ acc then acc else acc ++ [x]

/-- JavaScript Array.from(new Set(xs)): the distinct values of xs in
first-occurrence order (dataProcessing.ts lines 68 and 101,
dataService.ts line 117). -/
def firstOccur {α : Type} [DecidableEq α] (xs : List α) : List α :=
  xs.foldl insertIfAbsent []

/-- A parsed CSV row: ordered association list from column name to cell,
as produced by PapaParse with header: true. -/
abbrev RawRow := List (String × CellValue)

/-- Cell of a row at a column (JavaScript row[name]); rows in scope always
contain their columns, a missing key defaults to the number 0. -/
def rowGet (row : RawRow) (k : String) : CellValue :=
  ((row.lookup k).getD (.num 0))

/-- The raw target column of the dataset: data.forEach pushes
row[targetColumn] (dataProcessing.ts lines 61-65). -/
def rawOutputsOf (data : List RawRow) (targetColumn : String) : List CellValue :=
  data.map (fun row => rowGet row targetColumn)

/-- dataProcessing.ts line 71: isClassification is true when the first raw
output is a string, or when the number of distinct outputs is strictly
below 10. -/
def isClassificationDP (rawOutputs : List CellValue) : Bool :=
  (rawOutputs.headD (.num 0)).isStr || decide ((firstOccur rawOutputs).length < 10)

/-- dataService.ts line 118: isClassification is true when the number of
distinct target values is at most 10 (no string test). -/
def isClassificationDS (labelValues : List CellValue) : Bool :=
  decide ((firstOccur labelValues).length ≤ 10)

/-- dataProcessing.ts lines 103-108: one-hot row for a value.  The source
fills an all-zero array of the label-list length and writes 1 at
labels.indexOf(value); when the value is absent, indexOf yields -1 and the
JavaScript write oneHot[-1] = 1 leaves slots 0..n-1 untouched, so the row
stays all zero. -/
def oneHotDP (labels : List CellValue) (v : CellValue) : List ℚ :=
  if v ∈ labels then (List.replicate labels.length (0 : ℚ)).set (labels.indexOf v) 1
  else List.replicate labels.length 0

/-- dataService.ts lines 136-138: one-hot row via the label map.  The
lookup labelMap?.[v] || 0 yields the index of v in the label list when
present and 0 otherwise, and the write oneHot[labelIndex] = 1 always
lands inside the row. -/
def oneHotDS (labels : List CellValue) (v : CellValue) : List ℚ :=
  (List.replicate labels.length (0 : ℚ)).set
    (if v ∈ labels then labels.indexOf v else 0) 1

/-- Smallest element of a rational list (tf tensor .min(); 0 on the empty
list, which the callers never pass). -/
def listMinQ : List ℚ → ℚ
  | [] => 0
  | [x] => x
  | x :: y :: t => min x (listMinQ (y :: t))

/-- Largest element of a rational list (tf tensor .max()). -/
def listMaxQ : List ℚ → ℚ
  | [] => 0
  | [x] => x
  | x :: y :: t => max x (listMaxQ (y :: t))

/-- The epsilon 1e-8 guarding a zero-range regression column
(dataProcessing.ts line 122), taken at its decimal value. -/
def regressionEps : ℚ := 1 / 100000000

/-- dataProcessing.ts lines 115-128: regression targets are rescaled by
(value - min) / (max - min + 1e-8) over the whole column.  The formula is
rendered in exact rational arithmetic; the program evaluates it on float32
tensors, where rounding can absorb the 1e-8 epsilon into the range, so
this definition serves only to give processData its regression branch and
is not used to settle any claim about the numerical effect of the
epsilon. -/
def regressionEncode (ys : List ℚ) : List ℚ :=
  ys.map (fun v => (v - listMinQ ys) / (listMaxQ ys - listMinQ ys + regressionEps))

/-- The parts of the DatasetInfo built by dataProcessing.ts processData that
concern the target pipeline (the feature matrix and its normalization are
embedded separately as normalizeData below). -/
structure ProcessedTargets where
  features : List String
  target : String
  isClassification : Bool
  outputLabels : Option (List CellValue)
  outputValues : List (List ℚ)
deriving DecidableEq

/-- dataProcessing.ts processData (lines 46-169), restricted to the fields
of DatasetInfo that the claims concern: feature names exclude the target
column, the task is inferred from the raw outputs, string-classification
targets are one-hot encoded against the first-occurrence label list,
numeric-classification targets pass through as single numbers, and
regression targets are rescaled to the unit range. -/
def processData (data : List RawRow) (targetColumn : String) : ProcessedTargets :=
  let features := ((data.headD []).map Prod.fst).filter (fun c => c ≠ targetColumn)
  let rawOutputs := rawOutputsOf data targetColumn
  if isClassificationDP rawOutputs then
    if (rawOutputs.headD (.num 0)).isStr then
      let labels := firstOccur rawOutputs
      { features := features, target := targetColumn, isClassification := true,
        outputLabels := some labels,
        outputValues := rawOutputs.map (fun v => oneHotDP labels v) }
    else
      { features := features, target := targetColumn, isClassification := true,
        outputLabels := none,
        outputValues := rawOutputs.map (fun v => [v.jsNumber]) }
  else
    { features := features, target := targetColumn, isClassification := false,
      outputLabels := none,
      outputValues := (regressionEncode (rawOutputs.map CellValue.jsNumber)).map
        (fun q => [q]) }

/-- modelController.ts processFile (lines 42-76): an empty parse fails with
the fixed message, otherwise the data is processed with the first key of
the first parsed row (Object.keys(data[0])[0]) as target column.  The
method takes no target-column argument at all. -/
def processFile (data : List RawRow) : Except String ProcessedTargets :=
  if data.length = 0 then
    Except.error "The uploaded CSV file is empty or invalid."
  else
    Except.ok (processData data (((data.headD []).map Prod.fst).headD ""))

/-- A rational matrix standing for a tf 2-D tensor, row major. -/
abbrev QMat := List (List ℚ)

/-- Width of a 2-D tensor (shape[1]); tensors built by tf.tensor2d have
uniform row lengths, read off the first row. -/
def matWidth (m : QMat) : ℕ := (m.headD []).length

instance {ε α : Type} [DecidableEq ε] [DecidableEq α] : DecidableEq (Except ε α) :=
  fun x y =>
    match x, y with
    | .error a, .error b =>
      if h : a = b then .isTrue (by rw [h])
      else .isFalse (fun hc => h (by injection hc))
    | .ok a, .ok b =>
      if h : a = b then .isTrue (by rw [h])
      else .isFalse (fun hc => h (by injection hc))
    | .error _, .ok _ => .isFalse (fun hc => by cases hc)
    | .ok _, .error _ => .isFalse (fun hc => by cases hc)

/-- tf argMax along axis 1 on one row: the index of the first occurrence of
the largest value (modelService.ts line 171). -/
def argMaxIdx : List ℚ → ℕ
  | [] => 0
  | [_] => 0
  | x :: y :: t => if x < listMaxQ (y :: t) then argMaxIdx (y :: t) + 1 else 0

/-- JavaScript Math.round: round half toward positive infinity, the floor
of q + 1/2 (modelService.ts lines 188 and 200). -/
def jsRound (q : ℚ) : ℤ := Rat.floor (q + 1 / 2)

/-- tf.oneHot of one index into numClasses slots: a 1 at the index when it
lies inside 0..numClasses-1, an all-zero row otherwise (modelService.ts
line 192). -/
def oneHotInt (numClasses : ℕ) (k : ℤ) : List ℚ :=
  (List.range numClasses).map (fun j : ℕ => if (j : ℤ) = k then 1 else 0)

/-- modelService.ts line 211 reads model.getConfig().loss.  A
TensorFlow.js LayersModel serializes only its topology in getConfig()
(name and layer configs); the compile-time loss is not part of that
configuration, so the read always yields undefined. -/
def modelGetConfigLoss : Option String := none

/-- modelService.ts line 212: lossFunction is the config value when it is
a string and "unknown" otherwise.  Because the config read yields
undefined, this is always "unknown", and the loss checks comparing it
against the two loss names can never match. -/
def lossFunctionRead : String :=
  match modelGetConfigLoss with
  | some s => s
  | none => "unknown"

/-- modelService.ts trainModel lines 164-208: output-shape reconciliation.
Matching widths pass through; model width 1 against one-hot data collapses
each row to its arg-max index; model width above 1 against scalar data
rounds each scalar and expands it to a one-hot row; every other mismatch
throws naming both widths. -/
def reconcileYs (modelOutputUnits : ℕ) (ys : QMat) : Except String QMat :=
  if modelOutputUnits = matWidth ys then Except.ok ys
  else if modelOutputUnits = 1 ∧ 1 < matWidth ys then
    Except.ok (ys.map (fun row => [(argMaxIdx row : ℚ)]))
  else if 1 < modelOutputUnits ∧ matWidth ys = 1 then
    Except.ok (ys.map (fun row => oneHotInt modelOutputUnits (jsRound (row.headD 0))))
  else
    Except.error ("Cannot reshape output from " ++ toString (matWidth ys) ++
      " to " ++ toString modelOutputUnits ++ " units")

/-- modelService.ts trainModel lines 149-251, the part that runs before
model.fit: the input-width check (line 159), output reconciliation
(lines 164-208) and the loss/target-shape checks (lines 217-230), which
compare lossFunctionRead against the two loss names.  A returned
Except.ok ys2 means fit is invoked with targets ys2; a returned
Except.error means trainModel throws before fit. -/
def trainModelPrefit (modelInputUnits modelOutputUnits : ℕ)
    (xs ys : QMat) : Except String QMat :=
  if matWidth xs ≠ modelInputUnits then
    Except.error ("Input shape mismatch: model expects " ++ toString modelInputUnits ++
      " features but data has " ++ toString (matWidth xs) ++ " features")
  else
    match reconcileYs modelOutputUnits ys with
    | Except.error e => Except.error e
    | Except.ok ys2 =>
      if lossFunctionRead = "categoricalCrossentropy" ∧ matWidth ys2 = 1 then
        Except.error ("Categorical crossentropy loss requires one-hot encoded targets. " ++
          "Your target data has shape [" ++ toString ys2.length ++ "," ++
          toString (matWidth ys2) ++ "] but needs to be one-hot encoded.")
      else if lossFunctionRead = "binaryCrossentropy" ∧ matWidth ys2 ≠ 1 then
        Except.error ("Binary crossentropy loss requires binary targets with shape " ++
          "[samples, 1]. Your target data has shape [" ++ toString ys2.length ++ "," ++
          toString (matWidth ys2) ++ "].")
      else
        Except.ok ys2

/-- The ModelParameters record of src/types/index.ts: layers is optional,
learning rate kept as an exact rational. -/
structure ModelParams where
  layers : Option ℕ
  hiddenLayers : ℕ
  neuronsPerLayer : List ℕ
  activationFunction : String
  outputActivation : String
  learningRate : ℚ
  epochs : ℕ
  batchSize : ℕ
  optimizer : String
  taskType : Option String
deriving DecidableEq

/-- The chain of hidden-layer widths of dataProcessing.ts lines 263-269:
the first entry is the given first-layer size and each following entry is
max(10, floor(previous / 1.5)); floor(w / 1.5) on a machine integer w of
this range equals the natural division 2 * w / 3. -/
def hiddenWidths (first : ℕ) : ℕ → List ℕ
  | 0 => []
  | Nat.succ k => first :: hiddenWidths (max 10 (2 * first / 3)) k

/-- dataProcessing.ts predictOptimalArchitecture (lines 254-295).  The
hidden-layer count clamps floor(log2 numFeatures) to 1..3 (Nat.log2 is
that floor for positive arguments, and the clamp also agrees at 0), the
first width clamps numFeatures * 2 to 10..128, the output width is the
label count for a string-classification task with more than two labels and
1 otherwise, batch size clamps numExamples / 10 to 8..32, and the epoch
count clamps 10000 / numExamples to 50..200 (for positive numExamples;
the JavaScript division 10000 / 0 gives Infinity, not modelled). -/
def predictOptimalArchitecture (numFeatures numExamples : ℕ)
    (isClassification : Bool) (outputLabels : Option (List CellValue)) : ModelParams :=
  let hiddenLayerCount := min 3 (max 1 (Nat.log2 numFeatures))
  let firstLayerSize := min 128 (max (numFeatures * 2) 10)
  let neurons := hiddenWidths firstLayerSize hiddenLayerCount
  let outWidth : ℕ :=
    if isClassification then
      match outputLabels with
      | some ls => if 2 < ls.length then ls.length else 1
      | none => 1
    else 1
  { layers := some (hiddenLayerCount + 2),
    hiddenLayers := hiddenLayerCount,
    neuronsPerLayer := neurons ++ [outWidth],
    activationFunction := "relu",
    outputActivation := if isClassification then "sigmoid" else "linear",
    learningRate := 1 / 1000,
    epochs := min 200 (max 50 (10000 / numExamples)),
    batchSize := min 32 (max 8 (numExamples / 10)),
    optimizer := "adam",
    taskType := some (if isClassification then "classification" else "regression") }

/-- A real matrix standing for the feature tensor handed to the
normalizer, row major. -/
abbrev RMat := List (List ℝ)

/-- Arithmetic mean of a column (tensor.mean(0), dataProcessing.ts
line 177; dataService.ts line 152). -/
noncomputable def listMean (xs : List ℝ) : ℝ := xs.sum / xs.length

/-- Population variance of a column: the mean of the squared deviations
from the mean (dataProcessing.ts lines 191-192; dataService.ts
lines 153-154). -/
noncomputable def listVariance (xs : List ℝ) : ℝ :=
  ((xs.map (fun x => (x - listMean xs) ^ 2)).sum) / xs.length

/-- Population standard deviation Math.sqrt(variance)
(dataProcessing.ts line 193; dataService.ts line 155). -/
noncomputable def columnStd (xs : List ℝ) : ℝ := Real.sqrt (listVariance xs)

/-- The divisor actually used for normalization: a zero standard deviation
is replaced by 1 (dataProcessing.ts line 201, std === 0 ? 1 : std;
dataService.ts line 155, Math.sqrt(variance) || 1). -/
noncomputable def effectiveStd (s : ℝ) : ℝ := if s = 0 then 1 else s

/-- One column of the z-score normalization (x - mean) / effective-std,
shared by dataProcessing.ts line 208 (broadcast sub/div) and
dataService.ts line 162 (in-place loop). -/
noncomputable def zscoreColumn (xs : List ℝ) : List ℝ :=
  xs.map (fun x => (x - listMean xs) / effectiveStd (columnStd xs))

/-- Column i of a row-major matrix (tensor.slice([0, i], [batchSize, 1]),
dataProcessing.ts line 187). -/
def getColumn (m : RMat) (i : ℕ) : List ℝ := m.map (fun row => row.getD i 0)

/-- The means array returned by dataProcessing.ts normalizeData. -/
noncomputable def normalizeDataMeans (m : RMat) (numCols : ℕ) : List ℝ :=
  (List.range numCols).map (fun i => listMean (getColumn m i))

/-- The stds array RETURNED by dataProcessing.ts normalizeData
(line 214 returns stds, the raw square roots pushed at line 193; the
zero-replaced array nonZeroStds of line 201 is used only as the divisor
at line 208 and is not returned). -/
noncomputable def normalizeDataStds (m : RMat) (numCols : ℕ) : List ℝ :=
  (List.range numCols).map (fun i => columnStd (getColumn m i))

/-- The normalized matrix returned by dataProcessing.ts normalizeData
(line 208): each entry shifted by its column mean and divided by the
zero-replaced column standard deviation. -/
noncomputable def normalizeDataMatrix (m : RMat) (numCols : ℕ) : RMat :=
  m.map (fun row => (List.range numCols).map
    (fun i => (row.getD i 0 - listMean (getColumn m i)) /
      effectiveStd (columnStd (getColumn m i))))

/-- The std stored per feature by dataService.ts processData line 155:
const std = Math.sqrt(variance) || 1, so a zero square root (and only a
zero one, variances being nonnegative) is replaced by 1 in the stored
array itself. -/
noncomputable def dsStd (variance : ℝ) : ℝ :=
  if Real.sqrt variance = 0 then 1 else Real.sqrt variance

/-- The stds array stored in normalizeInfo by dataService.ts processData
(lines 147-158). -/
noncomputable def dsStds (xs : RMat) (numFeatures : ℕ) : List ℝ :=
  (List.range numFeatures).map (fun i => dsStd (listVariance (getColumn xs i)))

/-- One dense layer of the built model: unit count and activation string. -/
structure LayerSpec where
  units : ℕ
  activation : String
deriving DecidableEq

/-- The compiled model description assembled by createModel: the dense
layer stack, the loss, the metric list and the optimizer learning rate. -/
structure ModelSpec where
  inputWidth : ℕ
  denseLayers : List LayerSpec
  lossFn : String
  metrics : List String
  learningRate : ℚ
deriving DecidableEq

/-- modelService.ts createModel (lines 45-116): an input dense layer and
the hidden layers take units from neuronsPerLayer and the configured
activation; the output layer takes outputUnits with activation and loss
chosen only from isClassification and outputUnits (lines 82-99); metrics
include accuracy exactly for classification.  The outputActivation field
of the parameters is never read. -/
def createModel (parameters : ModelParams) (inputShape : List ℕ)
    (outputUnits : ℕ) (isClassification : Bool) : ModelSpec :=
  let totalLayers := parameters.layers.getD (parameters.hiddenLayers + 2)
  let inputLayer : LayerSpec :=
    { units := parameters.neuronsPerLayer.getD 0 0,
      activation := parameters.activationFunction }
  let hidden := ((List.range (totalLayers - 1)).drop 1).map
    (fun i => { units := parameters.neuronsPerLayer.getD i 0,
                activation := parameters.activationFunction : LayerSpec })
  let outputConfig : String × String :=
    if isClassification then
      if 1 < outputUnits then ("softmax", "categoricalCrossentropy")
      else ("sigmoid", "binaryCrossentropy")
    else ("linear", "meanSquaredError")
  { inputWidth := inputShape.headD 0,
    denseLayers := inputLayer :: hidden ++
      [{ units := outputUnits, activation := outputConfig.1 }],
    lossFn := outputConfig.2,
    metrics := if isClassification then ["accuracy"] else [],
    learningRate := parameters.learningRate }

/-! Helper lemmas. -/

theorem sum_map_sub_const (xs : List ℝ) (m : ℝ) :
    (xs.map (fun x => x - m)).sum = xs.sum - xs.length * m := by
  induction xs with
  | nil => simp
  | cons x t ih =>
    simp only [List.map_cons, List.sum_cons, ih, List.length_cons]
    push_cast
    ring

theorem sum_map_div_const (xs : List ℝ) (c : ℝ) :
    (xs.map (fun x => x / c)).sum = xs.sum / c := by
  induction xs with
  | nil => simp
  | cons x t ih =>
    simp only [List.map_cons, List.sum_cons, ih]
    ring

theorem length_cast_ne_zero (xs : List ℝ) (h : xs ≠ []) : (xs.length : ℝ) ≠ 0 := by
  have : xs.length ≠ 0 := fun hl => h (List.length_eq_zero.mp hl)
  exact_mod_cast this

theorem getD_map_range {α : Type} (n i : ℕ) (f : ℕ → α) (d : α) (h : i < n) :
    ((List.range n).map f).getD i d = f i := by
  rw [List.getD_eq_getElem?_getD, List.getElem?_map, List.getElem?_range h]
  rfl

theorem getD_set_replicate_self (n i : ℕ) (h : i < n) :
    (((List.replicate n (0 : ℚ)).set i 1).getD i 0) = 1 := by
  rw [List.getD_eq_getElem?_getD, List.getElem?_set]
  simp [h]

theorem getD_set_replicate_other (n i j : ℕ) (hne : i ≠ j) :
    (((List.replicate n (0 : ℚ)).set i 1).getD j 0) = 0 := by
  rw [List.getD_eq_getElem?_getD, List.getElem?_set]
  simp only [if_neg hne, List.getElem?_replicate]
  split <;> rfl

theorem mem_foldl_insertIfAbsent {α : Type} [DecidableEq α] (xs : List α)
    (acc : List α) (a : α) :
    a ∈ xs.foldl insertIfAbsent acc ↔ a ∈ acc ∨ a ∈ xs := by
  induction xs generalizing acc with
  | nil => simp
  | cons x t ih =>
    rw [List.foldl_cons, ih]
    unfold insertIfAbsent
    by_cases hx : x ∈ acc
    · simp only [if_pos hx, List.mem_cons]
      constructor
      · rintro (h | h)
        · exact Or.inl h
        · exact Or.inr (Or.inr h)
      · rintro (h | h | h)
        · exact Or.inl h
        · exact Or.inl (h ▸ hx)
        · exact Or.inr h
    · simp only [if_neg hx, List.mem_append, List.mem_singleton, List.mem_cons]
      tauto

theorem mem_firstOccur {α : Type} [DecidableEq α] (xs : List α) (a : α) :
    a ∈ firstOccur xs ↔ a ∈ xs := by
  unfold firstOccur
  rw [mem_foldl_insertIfAbsent]
  simp

theorem listMinQ_le (ys : List ℚ) (v : ℚ) (hv : v ∈ ys) : listMinQ ys ≤ v := by
  induction ys with
  | nil => cases hv
  | cons x t ih =>
    cases t with
    | nil =>
      rw [List.mem_singleton] at hv
      rw [hv, listMinQ]
    | cons y u =>
      rw [listMinQ]
      rcases List.mem_cons.mp hv with h1 | h2
      · rw [h1]; exact min_le_left _ _
      · exact le_trans (min_le_right _ _) (ih h2)

theorem le_listMaxQ (ys : List ℚ) (v : ℚ) (hv : v ∈ ys) : v ≤ listMaxQ ys := by
  induction ys with
  | nil => cases hv
  | cons x t ih =>
    cases t with
    | nil =>
      rw [List.mem_singleton] at hv
      rw [hv, listMaxQ]
    | cons y u =>
      rw [listMaxQ]
      rcases List.mem_cons.mp hv with h1 | h2
      · rw [h1]; exact le_max_left _ _
      · exact le_trans (ih h2) (le_max_right _ _)

theorem listMinQ_le_listMaxQ (ys : List ℚ) (h : ys ≠ []) :
    listMinQ ys ≤ listMaxQ ys := by
  rcases ys with _ | ⟨x, t⟩
  · exact absurd rfl h
  · exact le_trans (listMinQ_le _ x (List.mem_cons_self _ _)) (le_listMaxQ _ x (List.mem_cons_self _ _))

theorem argMaxIdx_lt_length (row : List ℚ) (h : row ≠ []) :
    argMaxIdx row < row.length := by
  induction row with
  | nil => exact absurd rfl h
  | cons x t ih =>
    cases t with
    | nil => simp [argMaxIdx]
    | cons y u =>
      rw [argMaxIdx]
      split
      · have := ih (by simp)
        simpa using Nat.succ_lt_succ this
      · simp

theorem getD_argMaxIdx (row : List ℚ) (h : row ≠ []) :
    row.getD (argMaxIdx row) 0 = listMaxQ row := by
  induction row with
  | nil => exact absurd rfl h
  | cons x t ih =>
    cases t with
    | nil => simp [argMaxIdx, listMaxQ]
    | cons y u =>
      rw [argMaxIdx, listMaxQ]
      split
      · rename_i hlt
        rw [List.getD_cons_succ, ih (by simp), max_eq_right (le_of_lt hlt)]
      · rename_i hge
        rw [List.getD_cons_zero, max_eq_left (le_of_not_lt hge)]

theorem hiddenWidths_length (c : ℕ) : ∀ f, (hiddenWidths f c).length = c := by
  induction c with
  | zero => intro f; rfl
  | succ k ih => intro f; simp [hiddenWidths, ih]

theorem hiddenWidths_headD (f c : ℕ) (h : 0 < c) : (hiddenWidths f c).headD 0 = f := by
  cases c with
  | zero => omega
  | succ k => rfl

theorem hiddenWidths_step (c : ℕ) : ∀ f i, i + 1 < c →
    (hiddenWidths f c).getD (i + 1) 0 =
      max 10 (2 * ((hiddenWidths f c).getD i 0) / 3) := by
  induction c with
  | zero => intro f i h; omega
  | succ k ih =>
    intro f i h
    cases i with
    | zero =>
      cases k with
      | zero => omega
      | succ m =>
        simp [hiddenWidths]
    | succ j =>
      have hj : j + 1 < k := by omega
      have := ih (max 10 (2 * f / 3)) j hj
      simp only [hiddenWidths, List.getD_cons_succ]
      exact this

theorem hiddenWidths_ge_ten (c : ℕ) : ∀ f, 10 ≤ f → ∀ w ∈ hiddenWidths f c, 10 ≤ w := by
  induction c with
  | zero => intro f _ w hw; cases hw
  | succ k ih =>
    intro f hf w hw
    rcases List.mem_cons.mp hw with h1 | h2
    · exact h1 ▸ hf
    · exact ih _ (le_max_left _ _) w h2

theorem listVariance_nonneg (xs : List ℝ) : 0 ≤ listVariance xs := by
  unfold listVariance
  apply div_nonneg
  · apply List.sum_nonneg
    intro x hx
    rcases List.mem_map.mp hx with ⟨y, _, rfl⟩
    positivity
  · positivity

theorem effectiveStd_ne_zero (s : ℝ) : effectiveStd s ≠ 0 := by
  unfold effectiveStd
  split
  · norm_num
  · assumption

theorem columnStd_eq_zero_iff (xs : List ℝ) : columnStd xs = 0 ↔ listVariance xs = 0 := by
  unfold columnStd
  exact Real.sqrt_eq_zero (listVariance_nonneg xs)

theorem zscoreColumn_length (xs : List ℝ) : (zscoreColumn xs).length = xs.length := by
  simp [zscoreColumn]

theorem zscoreColumn_sum (xs : List ℝ) (h : xs ≠ []) : (zscoreColumn xs).sum = 0 := by
  have hn := length_cast_ne_zero xs h
  have hmap : zscoreColumn xs =
      (xs.map (fun x => x - listMean xs)).map (fun y => y / effectiveStd (columnStd xs)) := by
    rw [List.map_map]
    rfl
  rw [hmap, sum_map_div_const, sum_map_sub_const, listMean]
  have hc : (xs.length : ℝ) * (xs.sum / xs.length) = xs.sum := by field_simp
  rw [hc, sub_self, zero_div]

theorem listMean_zscoreColumn (xs : List ℝ) (h : xs ≠ []) :
    listMean (zscoreColumn xs) = 0 := by
  rw [listMean, zscoreColumn_sum xs h, zero_div]

theorem listVariance_zscoreColumn (xs : List ℝ) (h : xs ≠ [])
    (hv : listVariance xs ≠ 0) : listVariance (zscoreColumn xs) = 1 := by
  have hn := length_cast_ne_zero xs h
  have hs0 : columnStd xs ≠ 0 := fun hc => hv ((columnStd_eq_zero_iff xs).mp hc)
  have he : effectiveStd (columnStd xs) = columnStd xs := if_neg hs0
  have hsq : columnStd xs ^ 2 = listVariance xs := Real.sq_sqrt (listVariance_nonneg xs)
  unfold listVariance
  rw [listMean_zscoreColumn xs h]
  simp only [sub_zero]
  rw [zscoreColumn_length]
  have hmap : (zscoreColumn xs).map (fun x => x ^ 2) =
      (xs.map (fun x => (x - listMean xs) ^ 2)).map (fun y => y / columnStd xs ^ 2) := by
    rw [zscoreColumn, List.map_map, List.map_map]
    apply List.map_congr_left
    intro a _
    simp only [Function.comp_apply, he]
    rw [div_pow]
  rw [hmap, sum_map_div_const]
  have hS : (xs.map (fun x => (x - listMean xs) ^ 2)).sum = listVariance xs * xs.length := by
    rw [listVariance]
    field_simp
  rw [hS, hsq]
  field_simp

theorem sum_sq_zero_all_eq (xs : List ℝ) (m : ℝ)
    (h : (xs.map (fun x => (x - m) ^ 2)).sum = 0) : ∀ x ∈ xs, x = m := by
  induction xs with
  | nil => intro x hx; cases hx
  | cons a t ih =>
    rw [List.map_cons, List.sum_cons] at h
    have ha : (0 : ℝ) ≤ (a - m) ^ 2 := sq_nonneg _
    have ht : (0 : ℝ) ≤ (t.map (fun x => (x - m) ^ 2)).sum := by
      apply List.sum_nonneg
      intro x hx
      rcases List.mem_map.mp hx with ⟨y, _, rfl⟩
      positivity
    have h2 := (add_eq_zero_iff_of_nonneg ha ht).mp h
    intro x hx
    rcases List.mem_cons.mp hx with rfl | hxt
    · have hx0 : (x - m) ^ 2 = 0 := h2.1
      have := pow_eq_zero_iff (n := 2) (by norm_num) |>.mp hx0
      linarith [sub_eq_zero.mp this]
    · exact ih h2.2 x hxt

theorem zscoreColumn_of_var_zero (xs : List ℝ) (h : xs ≠ [])
    (hv : listVariance xs = 0) : zscoreColumn xs = List.replicate xs.length 0 := by
  have hn := length_cast_ne_zero xs h
  have hS : (xs.map (fun x => (x - listMean xs) ^ 2)).sum = 0 := by
    rw [listVariance] at hv
    rcases div_eq_zero_iff.mp hv with h1 | h1
    · exact h1
    · exact absurd h1 hn
  have hall := sum_sq_zero_all_eq xs (listMean xs) hS
  refine List.eq_replicate_iff.mpr ⟨zscoreColumn_length xs, ?_⟩
  intro b hb
  rcases List.mem_map.mp hb with ⟨x, hx, rfl⟩
  rw [hall x hx, sub_self, zero_div]

theorem getColumn_length (m : RMat) (i : ℕ) : (getColumn m i).length = m.length := by
  simp [getColumn]

theorem getColumn_ne_nil (m : RMat) (i : ℕ) (h : m ≠ []) : getColumn m i ≠ [] := by
  simpa [getColumn] using h

theorem getColumn_normalizeDataMatrix (m : RMat) (n i : ℕ) (hi : i < n) :
    getColumn (normalizeDataMatrix m n) i = zscoreColumn (getColumn m i) := by
  unfold getColumn normalizeDataMatrix zscoreColumn
  rw [List.map_map, List.map_map]
  apply List.map_congr_left
  intro row _
  simp only [Function.comp_apply]
  exact getD_map_range n i _ 0 hi

theorem oneHotInt_length (n : ℕ) (k : ℤ) : (oneHotInt n k).length = n := by
  simp [oneHotInt]

theorem getD_oneHotInt_self (n : ℕ) (k : ℤ) (hk : 0 ≤ k) (hkn : k < n) :
    (oneHotInt n k).getD k.toNat 0 = 1 := by
  have h1 : k.toNat < n := by omega
  rw [oneHotInt, getD_map_range _ _ _ _ h1]
  simp [Int.toNat_of_nonneg hk]

theorem getD_oneHotInt_other (n : ℕ) (k : ℤ) (j : ℕ) (hj : j < n) (hne : (j : ℤ) ≠ k) :
    (oneHotInt n k).getD j 0 = 0 := by
  rw [oneHotInt, getD_map_range _ _ _ _ hj]
  simp [hne]

/-- The target field of processData is always the supplied target column. -/
theorem processData_target (data : List RawRow) (t : String) :
    (processData data t).target = t := by
  rcases hb : isClassificationDP (rawOutputsOf data t) with _ | _
  · simp [processData, hb]
  · rcases hs : ((rawOutputsOf data t).headD (CellValue.num 0)).isStr with _ | _ <;>
      simp only [List.headD_eq_head?_getD] at hs <;>
      simp [processData, hb, hs]

/-- C1 counterexample: one-hot encoding a string value that is absent from
the label list does not fail.  The dataProcessing.ts encoder returns the
all-zero row (the JavaScript write at index -1 leaves the row without any
1), and the dataService.ts encoder silently assigns index 0; no
EncodingError exists in the code. -/
theorem c1_counterexample :
    oneHotDP [CellValue.str "A", CellValue.str "B"] (CellValue.str "C") = [0, 0]
    ∧ (∀ x ∈ oneHotDP [CellValue.str "A", CellValue.str "B"] (CellValue.str "C"), x = 0)
    ∧ oneHotDS [CellValue.str "A", CellValue.str "B"] (CellValue.str "C") = [1, 0] := by
  refine ⟨?_, ?_, ?_⟩ <;> decide

/-- C1 (amended): one-hot label lookup never raises an error.  For a value
occurring in the raw targets, the label list (the first-occurrence
deduplication of those same targets) contains it, and the encoded row has
a 1 exactly at its label index; for a value outside the label list the
dataProcessing.ts encoder leaves the row all zero while the dataService.ts
encoder puts the 1 at index 0. -/
theorem c1_oneHot_total (rawOutputs : List CellValue) (v : CellValue) :
    (v ∈ rawOutputs → v ∈ firstOccur rawOutputs)
    ∧ (oneHotDP (firstOccur rawOutputs) v).length = (firstOccur rawOutputs).length
    ∧ (v ∈ rawOutputs →
        (oneHotDP (firstOccur rawOutputs) v).getD
          ((firstOccur rawOutputs).indexOf v) 0 = 1
        ∧ (∀ j < (firstOccur rawOutputs).length,
            j ≠ (firstOccur rawOutputs).indexOf v →
            (oneHotDP (firstOccur rawOutputs) v).getD j 0 = 0))
    ∧ (v ∉ firstOccur rawOutputs →
        oneHotDP (firstOccur rawOutputs) v =
          List.replicate (firstOccur rawOutputs).length 0
        ∧ (firstOccur rawOutputs ≠ [] →
            (oneHotDS (firstOccur rawOutputs) v).getD 0 0 = 1)) := by
  refine ⟨fun hv => (mem_firstOccur _ _).mpr hv, ?_, ?_, ?_⟩
  · unfold oneHotDP
    split <;> simp
  · intro hvr
    have hvl : v ∈ firstOccur rawOutputs := (mem_firstOccur _ _).mpr hvr
    have hidx : (firstOccur rawOutputs).indexOf v < (firstOccur rawOutputs).length :=
      List.indexOf_lt_length.mpr hvl
    unfold oneHotDP
    rw [if_pos hvl]
    exact ⟨getD_set_replicate_self _ _ hidx,
      fun j _ hne => getD_set_replicate_other _ _ _ (fun he => hne he.symm)⟩
  · intro hnv
    constructor
    · unfold oneHotDP
      rw [if_neg hnv]
    · intro hne
      have hpos : 0 < (firstOccur rawOutputs).length :=
        List.length_pos.mpr hne
      unfold oneHotDS
      rw [if_neg hnv]
      exact getD_set_replicate_self _ _ hpos

/-- C1 witness instantiating the in-list branch at a concrete dataset. -/
theorem c1_witness :
    (CellValue.str "B") ∈
      [CellValue.str "A", CellValue.str "B", CellValue.str "A"]
    ∧ (oneHotDP
        (firstOccur [CellValue.str "A", CellValue.str "B", CellValue.str "A"])
        (CellValue.str "B")).getD
        ((firstOccur [CellValue.str "A", CellValue.str "B", CellValue.str "A"]).indexOf
          (CellValue.str "B")) 0 = 1 :=
  ⟨by decide,
    ((c1_oneHot_total [CellValue.str "A", CellValue.str "B", CellValue.str "A"]
      (CellValue.str "B")).2.2.1 (by decide)).1⟩

/-- C2 counterexample: for the constant feature column of the matrix
[[5],[5]] the computed population standard deviation is 0, yet the stds
array returned by dataProcessing.ts normalizeData stores exactly 0 there,
not 1. -/
theorem c2_counterexample :
    listVariance (getColumn [[(5 : ℝ)], [5]] 0) = 0
    ∧ normalizeDataStds [[(5 : ℝ)], [5]] 1 = [0]
    ∧ normalizeDataStds [[(5 : ℝ)], [5]] 1 ≠ [1] := by
  have hcol : getColumn [[(5 : ℝ)], [5]] 0 = [5, 5] := by
    simp [getColumn]
  have hmean : listMean [(5 : ℝ), 5] = 5 := by
    rw [listMean]
    norm_num
  have hvar : listVariance [(5 : ℝ), 5] = 0 := by
    rw [listVariance, hmean]
    norm_num
  have hstd : columnStd [(5 : ℝ), 5] = 0 := by
    rw [columnStd, hvar, Real.sqrt_zero]
  refine ⟨by rw [hcol]; exact hvar, ?_, ?_⟩
  · unfold normalizeDataStds
    rw [show List.range 1 = [0] from rfl]
    rw [List.map_singleton, hcol, hstd]
  · unfold normalizeDataStds
    rw [show List.range 1 = [0] from rfl]
    rw [List.map_singleton, hcol, hstd]
    intro hcontra
    have : (0 : ℝ) = 1 := List.singleton_injective hcontra
    norm_num at this

/-- C2 (amended): the divisor used by the normalization is never zero (a
zero standard deviation is replaced by 1 in the divisor), and the stds
array stored by dataService.ts processData contains no zero (a zero square
root is stored as 1); but the stds array returned by dataProcessing.ts
normalizeData keeps the raw square root, which is exactly 0 for a
zero-variance column. -/
theorem c2_std_storage (m : RMat) (n i : ℕ) (hi : i < n) :
    effectiveStd (columnStd (getColumn m i)) ≠ 0
    ∧ (listVariance (getColumn m i) = 0 →
        effectiveStd (columnStd (getColumn m i)) = 1)
    ∧ (dsStds m n).getD i 0 ≠ 0
    ∧ (listVariance (getColumn m i) = 0 → (dsStds m n).getD i 0 = 1)
    ∧ (listVariance (getColumn m i) = 0 → (normalizeDataStds m n).getD i 0 = 0) := by
  have hds : (dsStds m n).getD i 0 = dsStd (listVariance (getColumn m i)) :=
    getD_map_range n i _ 0 hi
  have hns : (normalizeDataStds m n).getD i 0 = columnStd (getColumn m i) :=
    getD_map_range n i _ 0 hi
  refine ⟨effectiveStd_ne_zero _, ?_, ?_, ?_, ?_⟩
  · intro hv
    have : columnStd (getColumn m i) = 0 := (columnStd_eq_zero_iff _).mpr hv
    rw [this]
    unfold effectiveStd
    rw [if_pos rfl]
  · rw [hds]
    unfold dsStd
    split
    · norm_num
    · assumption
  · intro hv
    rw [hds]
    unfold dsStd
    rw [if_pos (by rw [hv, Real.sqrt_zero])]
  · intro hv
    rw [hns, columnStd, hv, Real.sqrt_zero]

/-- C2 witness at the constant column [[5],[5]]. -/
theorem c2_witness :
    0 < 1
    ∧ effectiveStd (columnStd (getColumn [[(5 : ℝ)], [5]] 0)) ≠ 0
    ∧ (dsStds [[(5 : ℝ)], [5]] 1).getD 0 0 ≠ 0 :=
  ⟨by norm_num, (c2_std_storage [[(5 : ℝ)], [5]] 1 0 (by norm_num)).1,
    (c2_std_storage [[(5 : ℝ)], [5]] 1 0 (by norm_num)).2.2.1⟩

/-- C3 counterexample: a numeric target column with exactly 10 distinct
values.  The claim (distinct-value count less than or equal to 10 implies
classification) would call this classification, but dataProcessing.ts
line 71 tests unique-count strictly below 10 and a numeric first value, so
the inferred task is regression. -/
theorem c3_counterexample :
    (firstOccur ((List.range 10).map (fun i => CellValue.num i))).length = 10
    ∧ isClassificationDP ((List.range 10).map (fun i => CellValue.num i)) = false
    ∧ (processData ((List.range 10).map (fun i => [("y", CellValue.num i)])) "y").isClassification
        = false := by
  refine ⟨?_, ?_, ?_⟩ <;> decide

/-- C3 (amended): the pipeline in use infers classification exactly when
the first raw target value is a string or the distinct-target count is at
most 9 (dataProcessing.ts line 71 uses strictly-below-10 and tests only
the first value); dataService.ts processData instead uses
distinct-count at most 10 with no string test. -/
theorem c3_task_inference (data : List RawRow) (t : String) :
    (processData data t).isClassification = isClassificationDP (rawOutputsOf data t)
    ∧ ((processData data t).isClassification = true ↔
        ((rawOutputsOf data t).headD (.num 0)).isStr = true
        ∨ (firstOccur (rawOutputsOf data t)).length ≤ 9)
    ∧ (isClassificationDS (rawOutputsOf data t) = true ↔
        (firstOccur (rawOutputsOf data t)).length ≤ 10) := by
  have h1 : (processData data t).isClassification = isClassificationDP (rawOutputsOf data t) := by
    rcases hb : isClassificationDP (rawOutputsOf data t) with _ | _
    · simp [processData, hb]
    · rcases hs : ((rawOutputsOf data t).headD (.num 0)).isStr with _ | _ <;>
        simp only [List.headD_eq_head?_getD] at hs <;>
        simp [processData, hb, hs]
  refine ⟨h1, ?_, ?_⟩
  · rw [h1]
    unfold isClassificationDP
    rw [Bool.or_eq_true, decide_eq_true_iff]
    constructor
    · rintro (h | h)
      · exact Or.inl h
      · exact Or.inr (by omega)
    · rintro (h | h)
      · exact Or.inl h
      · exact Or.inr (by omega)
  · unfold isClassificationDS
    rw [decide_eq_true_iff]

theorem listMinQ_mem (ys : List ℚ) (h : ys ≠ []) : listMinQ ys ∈ ys := by
  induction ys with
  | nil => exact absurd rfl h
  | cons x t ih =>
    cases t with
    | nil => simp [listMinQ]
    | cons y u =>
      rw [listMinQ]
      rcases min_choice x (listMinQ (y :: u)) with h1 | h1
      · rw [h1]; exact List.mem_cons_self _ _
      · rw [h1]; exact List.mem_cons_of_mem _ (ih (by simp))

theorem listMaxQ_mem (ys : List ℚ) (h : ys ≠ []) : listMaxQ ys ∈ ys := by
  induction ys with
  | nil => exact absurd rfl h
  | cons x t ih =>
    cases t with
    | nil => simp [listMaxQ]
    | cons y u =>
      rw [listMaxQ]
      rcases max_choice x (listMaxQ (y :: u)) with h1 | h1
      · rw [h1]; exact List.mem_cons_self _ _
      · rw [h1]; exact List.mem_cons_of_mem _ (ih (by simp))

theorem regressionDenom_pos (ys : List ℚ) (h : ys ≠ []) :
    0 < listMaxQ ys - listMinQ ys + regressionEps := by
  have h1 := listMinQ_le_listMaxQ ys h
  have h2 : (0 : ℚ) < regressionEps := by norm_num [regressionEps]
  linarith

/-- C4: the output-shape reconciliation of trainModel.  When the model
expects 1 unit and the data is one-hot of width above 1, every target row
is replaced by the singleton holding its arg-max index, which lies in
0..width-1 and attains the row maximum; when the model expects more than 1
unit and the data is scalar, every scalar is rounded half-up and expanded
to a one-hot row of the model width, with a 1 exactly at an in-range
rounded index; every other combination of differing widths fails with an
error naming both widths. -/
theorem c4_shape_reconciler (modelOut : ℕ) (ys : QMat) :
    (modelOut = 1 → 1 < matWidth ys →
      reconcileYs modelOut ys =
        Except.ok (ys.map (fun row => [(argMaxIdx row : ℚ)]))
      ∧ (∀ row ∈ ys, row.length = matWidth ys → argMaxIdx row < matWidth ys)
      ∧ (∀ row ∈ ys, row ≠ [] → row.getD (argMaxIdx row) 0 = listMaxQ row))
    ∧ (1 < modelOut → matWidth ys = 1 →
      reconcileYs modelOut ys =
        Except.ok (ys.map (fun row => oneHotInt modelOut (jsRound (row.headD 0))))
      ∧ (∀ row : List ℚ, (oneHotInt modelOut (jsRound (row.headD 0))).length = modelOut)
      ∧ (∀ k : ℤ, 0 ≤ k → k < (modelOut : ℤ) →
          (oneHotInt modelOut k).getD k.toNat 0 = 1
          ∧ ∀ j < modelOut, (j : ℤ) ≠ k → (oneHotInt modelOut k).getD j 0 = 0))
    ∧ (modelOut ≠ matWidth ys → ¬(modelOut = 1 ∧ 1 < matWidth ys) →
        ¬(1 < modelOut ∧ matWidth ys = 1) →
      reconcileYs modelOut ys = Except.error ("Cannot reshape output from " ++
        toString (matWidth ys) ++ " to " ++ toString modelOut ++ " units")) := by
  refine ⟨?_, ?_, ?_⟩
  · intro h1 h2
    have hne : modelOut ≠ matWidth ys := by omega
    refine ⟨?_, ?_, ?_⟩
    · unfold reconcileYs
      rw [if_neg hne, if_pos ⟨h1, h2⟩]
    · intro row _ hlen
      have hnil : row ≠ [] := by
        intro hc
        rw [hc] at hlen
        simp at hlen
        omega
      have := argMaxIdx_lt_length row hnil
      omega
    · intro row _ hnil
      exact getD_argMaxIdx row hnil
  · intro h1 h2
    have hne : modelOut ≠ matWidth ys := by omega
    have hc1 : ¬(modelOut = 1 ∧ 1 < matWidth ys) := by omega
    refine ⟨?_, fun row => oneHotInt_length _ _, ?_⟩
    · unfold reconcileYs
      rw [if_neg hne, if_neg hc1, if_pos ⟨h1, h2⟩]
    · intro k hk0 hkn
      refine ⟨getD_oneHotInt_self modelOut k hk0 hkn, ?_⟩
      intro j hj hne2
      exact getD_oneHotInt_other modelOut k j hj hne2
  · intro hne hc1 hc2
    unfold reconcileYs
    rw [if_neg hne, if_neg hc1, if_neg hc2]

/-- C4 witness collapsing a width-3 one-hot target to arg-max indices. -/
theorem c4_witness :
    reconcileYs 1 [[(0 : ℚ), 1, 0], [1, 0, 0]] =
      Except.ok ([[(0 : ℚ), 1, 0], [1, 0, 0]].map (fun row => [(argMaxIdx row : ℚ)])) :=
  ((c4_shape_reconciler 1 [[(0 : ℚ), 1, 0], [1, 0, 0]]).1 rfl (by decide)).1

/-- C5 counterexample: a model built by createModel for 3-class
classification is compiled with categorical cross-entropy, yet training it
on width-1 targets does not fail before fit: the targets are expanded to
one-hot rows and fit is reached.  The pairing of a one-hot loss with
width-1 targets does not fail fatally. -/
theorem c5_counterexample :
    (createModel
        { layers := none, hiddenLayers := 1, neuronsPerLayer := [8],
          activationFunction := "relu", outputActivation := "sigmoid",
          learningRate := 1 / 1000, epochs := 10, batchSize := 8,
          optimizer := "adam", taskType := none }
        [1] 3 true).lossFn = "categoricalCrossentropy"
    ∧ matWidth [[(0 : ℚ)], [2]] = 1
    ∧ trainModelPrefit 1 3 [[(0 : ℚ)], [0]] [[(0 : ℚ)], [2]] =
        Except.ok [[1, 0, 0], [0, 0, 1]] := by
  refine ⟨rfl, rfl, ?_⟩
  have hr0 : jsRound (0 : ℚ) = 0 := by
    show Rat.floor ((0 : ℚ) + 1 / 2) = 0
    rw [show Rat.floor ((0 : ℚ) + 1 / 2) = ⌊((0 : ℚ) + 1 / 2)⌋ from rfl]
    norm_num
  have hr2 : jsRound (2 : ℚ) = 2 := by
    show Rat.floor ((2 : ℚ) + 1 / 2) = 2
    rw [show Rat.floor ((2 : ℚ) + 1 / 2) = ⌊((2 : ℚ) + 1 / 2)⌋ from rfl]
    norm_num
  have hrec : reconcileYs 3 [[(0 : ℚ)], [2]] = Except.ok [[1, 0, 0], [0, 0, 1]] := by
    unfold reconcileYs
    rw [if_neg (by decide), if_neg (by decide), if_pos (by decide)]
    simp only [List.map_cons, List.map_nil, List.headD_cons]
    rw [hr0, hr2]
    decide
  unfold trainModelPrefit
  rw [if_neg (by decide), hrec]
  dsimp only
  rw [if_neg (by decide), if_neg (by decide)]

/-- C5 (amended): the loss/target-shape checks of trainModel are dead
code.  The loss string read from the model configuration is always
"unknown" (TensorFlow.js getConfig() carries no compile-time loss), so
neither check can match: whenever the input widths agree and output
reconciliation succeeds, fit is invoked with the reconciled targets, for
every loss the model was compiled with; the only failures before fit are
the input-width mismatch and an irreconcilable output width. -/
theorem c5_loss_validation :
    lossFunctionRead = "unknown"
    ∧ lossFunctionRead ≠ "categoricalCrossentropy"
    ∧ lossFunctionRead ≠ "binaryCrossentropy"
    ∧ (∀ (mIn mOut : ℕ) (xs ys ys2 : QMat), matWidth xs = mIn →
        reconcileYs mOut ys = Except.ok ys2 →
        trainModelPrefit mIn mOut xs ys = Except.ok ys2)
    ∧ (∀ (mIn mOut : ℕ) (xs ys : QMat) (e : String),
        trainModelPrefit mIn mOut xs ys = Except.error e →
        matWidth xs ≠ mIn ∨ reconcileYs mOut ys = Except.error e) := by
  have hcat : ¬(lossFunctionRead = "categoricalCrossentropy") := by decide
  have hbin : ¬(lossFunctionRead = "binaryCrossentropy") := by decide
  refine ⟨rfl, hcat, hbin, ?_, ?_⟩
  · intro mIn mOut xs ys ys2 hx hr
    unfold trainModelPrefit
    rw [if_neg (fun hh => hh hx), hr]
    dsimp only
    rw [if_neg (fun hc => hcat hc.1), if_neg (fun hc => hbin hc.1)]
  · intro mIn mOut xs ys e herr
    unfold trainModelPrefit at herr
    by_cases hx : matWidth xs ≠ mIn
    · exact Or.inl hx
    · rw [if_neg hx] at herr
      cases hr : reconcileYs mOut ys with
      | error e2 =>
        rw [hr] at herr
        dsimp only at herr
        injection herr with h2
        exact Or.inr (congrArg Except.error h2)
      | ok ys3 =>
        rw [hr] at herr
        dsimp only at herr
        rw [if_neg (fun hc => hcat hc.1), if_neg (fun hc => hbin hc.1)] at herr
        cases herr

/-- C5 witness: with matching widths the pre-fit pipeline reaches fit. -/
theorem c5_witness :
    lossFunctionRead = "unknown"
    ∧ matWidth [[(0 : ℚ)]] = 1
    ∧ reconcileYs 1 [[(0 : ℚ)]] = Except.ok [[0]]
    ∧ trainModelPrefit 1 1 [[(0 : ℚ)]] [[(0 : ℚ)]] = Except.ok [[0]] :=
  ⟨c5_loss_validation.1, rfl, by decide,
    c5_loss_validation.2.2.2.1 1 1 [[(0 : ℚ)]] [[(0 : ℚ)]] [[0]] rfl (by decide)⟩

/-- C8: normalizing each feature column by its own computed mean and
standard deviation yields, in exact arithmetic, a column of mean 0 and
population standard deviation 1; a column of zero variance maps to the
constant-0 column; and the divisor is never zero, so no entry is ever a
division by zero (the NaN/Infinity guard). -/
theorem c8_zscore_normalization (m : RMat) (n i : ℕ) (hi : i < n) (hm : m ≠ []) :
    getColumn (normalizeDataMatrix m n) i = zscoreColumn (getColumn m i)
    ∧ listMean (zscoreColumn (getColumn m i)) = 0
    ∧ (listVariance (getColumn m i) ≠ 0 →
        listVariance (zscoreColumn (getColumn m i)) = 1
        ∧ Real.sqrt (listVariance (zscoreColumn (getColumn m i))) = 1)
    ∧ (listVariance (getColumn m i) = 0 →
        zscoreColumn (getColumn m i) = List.replicate m.length 0)
    ∧ effectiveStd (columnStd (getColumn m i)) ≠ 0 := by
  have hc : getColumn m i ≠ [] := getColumn_ne_nil m i hm
  refine ⟨getColumn_normalizeDataMatrix m n i hi, listMean_zscoreColumn _ hc,
    ?_, ?_, effectiveStd_ne_zero _⟩
  · intro hv
    have h1 := listVariance_zscoreColumn _ hc hv
    exact ⟨h1, by rw [h1, Real.sqrt_one]⟩
  · intro hv
    rw [zscoreColumn_of_var_zero _ hc hv, getColumn_length]

/-- C8 witness at the concrete column [0, 2] (variance 1). -/
theorem c8_witness :
    ((0 : ℕ) < 1) ∧ ([[(0 : ℝ)], [2]] ≠ ([] : RMat))
    ∧ listMean (zscoreColumn (getColumn [[(0 : ℝ)], [2]] 0)) = 0 :=
  ⟨by norm_num, by simp,
    (c8_zscore_normalization [[(0 : ℝ)], [2]] 1 0 (by norm_num) (by simp)).2.1⟩

/-- C9: processFile always processes the data with the first key of the
first parsed row as target column (it receives no target-column argument),
and the processed dataset records exactly that column as its target. -/
theorem c9_processFile_target (data : List RawRow) (row : RawRow)
    (rest : List RawRow) (h : data = row :: rest) :
    processFile data = Except.ok (processData data ((row.map Prod.fst).headD ""))
    ∧ (processData data ((row.map Prod.fst).headD "")).target
        = (row.map Prod.fst).headD "" := by
  subst h
  refine ⟨?_, processData_target _ _⟩
  unfold processFile
  rw [if_neg (by simp)]
  rfl

/-- C9 witness at a concrete two-column row. -/
theorem c9_witness :
    processFile [[("a", CellValue.num 1), ("b", CellValue.num 2)]]
      = Except.ok (processData [[("a", CellValue.num 1), ("b", CellValue.num 2)]] "a")
    ∧ (processData [[("a", CellValue.num 1), ("b", CellValue.num 2)]] "a").target = "a" :=
  c9_processFile_target [[("a", CellValue.num 1), ("b", CellValue.num 2)]]
    [("a", CellValue.num 1), ("b", CellValue.num 2)] [] rfl

/-- C6: the architecture heuristic computes exactly the claimed formulas:
hidden-layer count clamp(floor(log2 F), 1, 3); first hidden width
clamp(2F, 10, 128); each subsequent width max(10, floor(previous / 1.5))
(equal to 2w/3 in integers); output width 1 for regression or at most two
labels and the label count for more than two labels; batch size
clamp(S/10, 8, 32); epochs clamp(10000/S, 50, 200); learning rate 0.001;
adam; relu hidden activation; sigmoid output for classification and linear
for regression; and every width except the final output entry is at
least 10.  The heuristic is a pure function, so determinism is inherent. -/
theorem c6_architecture_heuristic (numFeatures numExamples : ℕ) (isC : Bool)
    (outputLabels : Option (List CellValue)) (hS : 0 < numExamples)
    (p : ModelParams)
    (hp : p = predictOptimalArchitecture numFeatures numExamples isC outputLabels) :
    p.hiddenLayers = min (max (Nat.log2 numFeatures) 1) 3
    ∧ p.neuronsPerLayer.headD 0 = min (max (numFeatures * 2) 10) 128
    ∧ (∀ i, i + 1 < p.hiddenLayers →
        p.neuronsPerLayer.getD (i + 1) 0
          = max 10 (2 * (p.neuronsPerLayer.getD i 0) / 3))
    ∧ p.neuronsPerLayer.length = p.hiddenLayers + 1
    ∧ (isC = false → p.neuronsPerLayer.getLast? = some 1)
    ∧ (∀ ls, outputLabels = some ls → isC = true →
        (2 < ls.length → p.neuronsPerLayer.getLast? = some ls.length)
        ∧ (ls.length ≤ 2 → p.neuronsPerLayer.getLast? = some 1))
    ∧ p.batchSize = min (max (numExamples / 10) 8) 32
    ∧ p.epochs = min (max (10000 / numExamples) 50) 200
    ∧ p.learningRate = 1 / 1000
    ∧ p.optimizer = "adam"
    ∧ p.activationFunction = "relu"
    ∧ p.outputActivation = (if isC then "sigmoid" else "linear")
    ∧ p.layers = some (p.hiddenLayers + 2)
    ∧ (∀ w ∈ p.neuronsPerLayer.dropLast, 10 ≤ w) := by
  subst hp
  unfold predictOptimalArchitecture
  refine ⟨by dsimp only; omega, ?_, ?_, ?_, ?_, ?_, by dsimp only; omega,
    by dsimp only; omega, rfl, rfl, rfl, rfl, rfl, ?_⟩
  · obtain ⟨k, hk⟩ : ∃ k, min 3 (max 1 (Nat.log2 numFeatures)) = k + 1 :=
      ⟨min 3 (max 1 (Nat.log2 numFeatures)) - 1, by omega⟩
    dsimp only
    rw [hk]
    show (hiddenWidths (min 128 (max (numFeatures * 2) 10)) (k + 1) ++ [_]).headD 0 = _
    rw [hiddenWidths]
    show min 128 (max (numFeatures * 2) 10) = _
    omega
  · intro i hi
    dsimp only at hi ⊢
    have hlen : i + 1 < (hiddenWidths (min 128 (max (numFeatures * 2) 10))
        (min 3 (max 1 (Nat.log2 numFeatures)))).length := by
      rw [hiddenWidths_length]
      exact hi
    have hlen0 : i < (hiddenWidths (min 128 (max (numFeatures * 2) 10))
        (min 3 (max 1 (Nat.log2 numFeatures)))).length := by omega
    rw [List.getD_append _ _ _ _ hlen, List.getD_append _ _ _ _ hlen0]
    exact hiddenWidths_step _ _ i hi
  · dsimp only
    rw [List.length_append, hiddenWidths_length]
    rfl
  · intro hf
    dsimp only
    rw [hf, List.getLast?_concat]
    rfl
  · intro ls hls hc
    subst hc
    rw [hls]
    dsimp only
    constructor
    · intro h2
      rw [if_pos h2, List.getLast?_concat]
      rfl
    · intro h2
      rw [if_neg (show ¬(2 < ls.length) by omega), List.getLast?_concat]
      rfl
  · dsimp only
    rw [List.dropLast_concat]
    exact hiddenWidths_ge_ten _ _ (by omega)

/-- C6 witness at a concrete 4-feature, 100-sample, 3-label dataset. -/
theorem c6_witness :
    (0 : ℕ) < 100
    ∧ (predictOptimalArchitecture 4 100 true
        (some [CellValue.str "a", CellValue.str "b", CellValue.str "c"])).batchSize
      = min (max (100 / 10) 8) 32 :=
  ⟨by norm_num,
    (c6_architecture_heuristic 4 100 true
      (some [CellValue.str "a", CellValue.str "b", CellValue.str "c"]) (by norm_num)
      _ rfl).2.2.2.2.2.2.1⟩

/-- C10: createModel picks the output activation and loss solely from the
classification flag and the output-unit count: softmax with categorical
cross-entropy for multi-class, sigmoid with binary cross-entropy for one
output unit, linear with mean squared error for regression; the
outputActivation field of the supplied parameters never influences the
result. -/
theorem c10_createModel_output (parameters : ModelParams) (inputShape : List ℕ)
    (outputUnits : ℕ) (isC : Bool) :
    (isC = true → 1 < outputUnits →
      (createModel parameters inputShape outputUnits isC).denseLayers.getLast?
          = some { units := outputUnits, activation := "softmax" }
      ∧ (createModel parameters inputShape outputUnits isC).lossFn
          = "categoricalCrossentropy")
    ∧ (isC = true → outputUnits = 1 →
      (createModel parameters inputShape outputUnits isC).denseLayers.getLast?
          = some { units := outputUnits, activation := "sigmoid" }
      ∧ (createModel parameters inputShape outputUnits isC).lossFn
          = "binaryCrossentropy")
    ∧ (isC = false →
      (createModel parameters inputShape outputUnits isC).denseLayers.getLast?
          = some { units := outputUnits, activation := "linear" }
      ∧ (createModel parameters inputShape outputUnits isC).lossFn
          = "meanSquaredError")
    ∧ (∀ a, createModel { parameters with outputActivation := a }
          inputShape outputUnits isC
        = createModel parameters inputShape outputUnits isC) := by
  have hlast : ∀ (x : LayerSpec) (l : List LayerSpec) (a : LayerSpec),
      (x :: (l ++ [a])).getLast? = some a := by
    intro x l a
    rw [← List.cons_append, List.getLast?_concat]
  refine ⟨?_, ?_, ?_, fun a => rfl⟩
  · intro h1 h2
    subst h1
    unfold createModel
    rw [if_pos rfl, if_pos h2]
    exact ⟨hlast _ _ _, rfl⟩
  · intro h1 h2
    subst h1
    subst h2
    unfold createModel
    rw [if_pos rfl, if_neg (by omega)]
    exact ⟨hlast _ _ _, rfl⟩
  · intro h1
    subst h1
    unfold createModel
    rw [if_neg (by simp)]
    exact ⟨hlast _ _ _, rfl⟩

/-- C10 witness: a classification model with 3 output units and a
parameter record whose outputActivation is relu still compiles softmax
with categorical cross-entropy. -/
theorem c10_witness :
    (true = true)
    ∧ (1 : ℕ) < 3
    ∧ (createModel
        { layers := none, hiddenLayers := 1, neuronsPerLayer := [8],
          activationFunction := "relu", outputActivation := "relu",
          learningRate := 1 / 1000, epochs := 10, batchSize := 8,
          optimizer := "adam", taskType := none }
        [4] 3 true).lossFn = "categoricalCrossentropy" :=
  ⟨rfl, by norm_num,
    ((c10_createModel_output
      { layers := none, hiddenLayers := 1, neuronsPerLayer := [8],
        activationFunction := "relu", outputActivation := "relu",
        learningRate := 1 / 1000, epochs := 10, batchSize := 8,
        optimizer := "adam", taskType := none }
      [4] 3 true).1 rfl (by norm_num)).2⟩

end NNI
